import Mathlib

/-! ServiceLink (roscpp, `service_link.cpp`)

A shallow embedding of the server-side service connection handler.

The link talks to three collaborators whose code lives in other translation
units: the connection (`connection_`), the node (`g_node`) and the service
server (`ss`, `parent_`).  Every call the link makes on one of them is recorded,
in program order, as an `Effect`; every value the link reads from one of them
is a field of the corresponding structure.

Platform conventions of the embedding: bytes are naturals below 256, `int` and
`uint32_t` are 32 bits wide, and the host stores integers least-significant
byte first (so a 4-byte load or `memcpy` of an integer is little-endian).
A callback is only ever invoked by the connection it was bound on, so the
`conn` argument of the callbacks is the link's own `connection_`
(`ROS_ASSERT(conn == connection_)`).

The weak reference `parent_` locks to the recorded service as long as the
service object exists; the functions that lock it take that fact as the
argument `parentAlive`.  Properties that span several callbacks are stated on
a `Session`: the link together with the operations pending on its connection,
the requests its service is processing, and the history of entries and calls.
-/

namespace ros

/-! ## Collaborators -/

/-- Modelled from the spec: the handshake `Header` (declared in `ros/header.h`), a
mapping of field name to string value. -/
abbrev Header := List (String × String)

/-- Modelled from the spec: `Header::getValue(key, value)` (declared in `ros/header.h`);
`none` stands for the `false` return, `some v` for `true` with `value = v`. -/
def Header.getValue (header : Header) (key : String) : Option String :=
  header.lookup key

/-- The string map `M_string` (`std::map<std::string, std::string>`), kept as
an association list with unique keys. -/
abbrev M_string := List (String × String)

/-- The assignment `m[key] = value` on an `M_string`: overwrite the entry of
`key` when there is one, add the entry otherwise. -/
def M_string.assign : M_string → String → String → M_string
  | [], key, value => [(key, value)]
  | (k, v) :: rest, key, value =>
    if k = key then (k, value) :: rest else (k, v) :: M_string.assign rest key value

/-- What the link observes of a `ServiceServer` (declared in
`ros/service_server.h`): the values of its getters at the time of the call. -/
structure ServiceServer where
  getMD5Sum : String
  getRequestDataType : String
  getResponseDataType : String
  isDropped : Bool
  deriving DecidableEq, Repr

/-- What the link observes of the node `g_node` (declared in `ros/node.h`):
the service lookup, `none` being the null pointer, and the node name. -/
structure Node where
  lookupServiceServer : String → Option ServiceServer
  getName : String

/-- The member functions of the link that are bound as completion callbacks. -/
inductive Callback where
  | onHeaderWritten
  | onRequestLength
  | onRequest
  | onResponseWritten
  deriving DecidableEq, Repr

/-- One call made by the link on a collaborator. -/
inductive Effect where
  /-- The call `connection_->sendHeaderError(msg)`. -/
  | sendHeaderError (msg : String)
  /-- The call `connection_->writeHeader(m, cb)`. -/
  | writeHeader (m : M_string) (cb : Callback)
  /-- The call `connection_->read(size, cb)`. -/
  | read (size : Nat) (cb : Callback)
  /-- The call `connection_->write(buf, num_bytes, cb)`; `buf` holds the first
  `num_bytes` bytes of the buffer. -/
  | write (buf : List Nat) (num_bytes : Nat) (cb : Callback)
  /-- The call `conn->drop()`. -/
  | drop
  /-- The call `ss->addServiceLink(shared_from_this())`. -/
  | addServiceLink (ss : ServiceServer)
  /-- The call `parent->removeServiceLink(shared_from_this())`. -/
  | removeServiceLink (ss : ServiceServer)
  /-- The call `parent->processRequest(buffer, size, shared_from_this())`. -/
  | processRequest (ss : ServiceServer) (buffer : List Nat) (size : Nat)
  /-- The fatal assertion `ROS_BREAK()`. -/
  | rosBreak
  deriving DecidableEq, Repr

/-- Whether an effect is a `sendHeaderError` call. -/
def Effect.isHeaderError : Effect → Bool
  | .sendHeaderError _ => true
  | _ => false

/-- Whether an effect is a `writeHeader` call. -/
def Effect.isWriteHeader : Effect → Bool
  | .writeHeader _ _ => true
  | _ => false

/-- Whether an effect is an `addServiceLink` call. -/
def Effect.isAddServiceLink : Effect → Bool
  | .addServiceLink _ => true
  | _ => false

/-- Whether an effect is a `read` call on the connection. -/
def Effect.isRead : Effect → Bool
  | .read _ _ => true
  | _ => false

/-- Whether an effect is the forced close `drop`. -/
def Effect.isDrop : Effect → Bool
  | .drop => true
  | _ => false

/-! ## The link -/

/-- The mutable state of a `ServiceLink`: the weak reference `parent_`
(`none` while it has never been assigned). -/
structure ServiceLink where
  parent_ : Option ServiceServer
  deriving DecidableEq, Repr

/-- The result of one member-function call: the return value, the link
afterwards and the calls made on the collaborators, in order. -/
structure Outcome where
  ret : Bool
  link : ServiceLink
  effects : List Effect
  deriving DecidableEq, Repr

/-- The diagnostic sent when a required header element is missing. -/
def bogusHeaderMsg : String :=
  "bogus tcpros header. did not have the " ++
    "required elements: md5sum, service, callerid"

/-- The diagnostic sent for a service that does not exist (any more). -/
def nonexistentServiceMsg (service : String) : String :=
  ("received a tcpros connection for a " ++ "nonexistent service [") ++
    service ++ "]."

/-- The diagnostic sent when the checksums do not agree. -/
def md5MismatchMsg (service md5sum ssMD5 : String) : String :=
  "client wants service " ++ service ++ " to have md5sum " ++ md5sum ++
    ", but it has " ++ ssMD5 ++ ". Dropping connection."

/-- The outbound header built on success (`m["request_type"] = ...` and the
four assignments after it, on an empty map). -/
def successHeader (node : Node) (ss : ServiceServer) : M_string :=
  let m : M_string := []
  let m := m.assign "request_type" ss.getRequestDataType
  let m := m.assign "response_type" ss.getResponseDataType
  let m := m.assign "type" ss.getRequestDataType
  let m := m.assign "md5sum" ss.getMD5Sum
  let m := m.assign "callerid" node.getName
  m

/-- The function `ServiceLink::handleHeader`. -/
def handleHeader (node : Node) (self : ServiceLink) (header : Header) : Outcome :=
  match header.getValue "md5sum" with
  | none => ⟨false, self, [.sendHeaderError bogusHeaderMsg]⟩
  | some md5sum =>
  match header.getValue "service" with
  | none => ⟨false, self, [.sendHeaderError bogusHeaderMsg]⟩
  | some service =>
  match header.getValue "callerid" with
  | none => ⟨false, self, [.sendHeaderError bogusHeaderMsg]⟩
  | some _client_callerid =>
  match node.lookupServiceServer service with
  | none => ⟨false, self, [.sendHeaderError (nonexistentServiceMsg service)]⟩
  | some ss =>
    if ss.getMD5Sum ≠ md5sum ∧ (md5sum ≠ "*" ∧ ss.getMD5Sum ≠ "*") then
      ⟨false, self, [.sendHeaderError (md5MismatchMsg service md5sum ss.getMD5Sum)]⟩
    else if ss.isDropped then
      ⟨false, self, [.sendHeaderError (nonexistentServiceMsg service)]⟩
    else
      ⟨true, { self with parent_ := some ss },
        [.writeHeader (successHeader node ss) .onHeaderWritten, .addServiceLink ss]⟩

/-- The load `*((uint32_t*)buffer.get())`: the value of the first four bytes
of the buffer, least significant byte first; `none` when the buffer holds
fewer than four bytes. -/
def loadU32 : List Nat → Option Nat
  | b0 :: b1 :: b2 :: b3 :: _ => some (b0 + 256 * b1 + 65536 * b2 + 16777216 * b3)
  | _ => none

/-- The function `ServiceLink::onRequestLength`; `none` is a failed
`ROS_ASSERT(size == 4)` or a load past the end of the buffer.  The branch on
`len > 1000000000` has no `return`, so control reaches the `read` on both
branches. -/
def onRequestLength (_self : ServiceLink) (buffer : List Nat) (size : Nat) :
    Option (List Effect) :=
  if size ≠ 4 then none
  else
    match loadU32 buffer with
    | none => none
    | some len =>
      let dropped : List Effect := if len > 1000000000 then [.drop] else []
      some (dropped ++ [.read len .onRequest])

/-- Modelled from the spec: the response `Message` (declared in `ros/message.h`),
seen through the two member functions the link calls: the value returned by
`serializationLength()` and the payload bytes that `serialize(write_ptr, 0)`
stores from `write_ptr` on. -/
structure Message where
  serializationLength : Nat
  serialize : List Nat
  deriving DecidableEq, Repr

/-- The largest value of an `int`. -/
def INT_MAX : Int := 2147483647

/-- The conversion of a `uint32_t` value to `int` (two's complement). -/
def toInt32 (u : Nat) : Int :=
  if u % 4294967296 < 2147483648 then (u % 4294967296 : Nat)
  else ((u % 4294967296 : Nat) : Int) - 4294967296

/-- The conversion of an `int` value to `uint32_t`. -/
def toUInt32 (i : Int) : Nat :=
  (i % 4294967296).toNat

/-- The four bytes of a 32-bit integer as laid out in memory, least
significant byte first (the source of `memcpy(..., &msg_len, 4)`). -/
def bytesOfInt32 (i : Int) : List Nat :=
  let u := toUInt32 i
  [u % 256, u / 256 % 256, u / 65536 % 256, u / 16777216 % 256]

/-- The array `new uint8_t[n]`: `n` bytes whose initial contents `uninit` are
unspecified. -/
def newArray (uninit : Nat → Nat) (n : Nat) : List Nat :=
  (List.range n).map uninit

/-- Storing the bytes `src` into `buf` from offset `off` on; `none` when a
store falls outside the array. -/
def store : List Nat → Nat → List Nat → Option (List Nat)
  | buf, _, [] => some buf
  | buf, off, b :: bs =>
    if off < buf.length then store (buf.set off b) (off + 1) bs else none

/-- The function `ServiceLink::processResponse`; `none` when the arithmetic on
`msg_len` overflows `int`, the allocation size is negative, or a store falls
outside the allocated array.  The `write` effect carries the `num_bytes` bytes
handed to the connection. -/
def processResponse (_self : ServiceLink) (ok : Bool) (resp : Message)
    (uninit : Nat → Nat) : Option (List Effect) :=
  if ok then
    let msg_len : Int := toInt32 resp.serializationLength
    if msg_len + 5 > INT_MAX then none
    else if msg_len + 5 < 0 then none
    else
      (store (newArray uninit (msg_len + 5).toNat) 0 [1]).bind fun buf =>
      (store buf 1 (bytesOfInt32 msg_len)).bind fun buf =>
      (store buf 5 resp.serialize).bind fun buf =>
      let num_bytes := toUInt32 (msg_len + 5)
      some [.write (buf.take num_bytes) num_bytes .onResponseWritten]
  else
    (store (newArray uninit 5) 0 [0]).bind fun buf =>
    (store buf 1 [0]).bind fun buf =>
    (store buf 2 [0]).bind fun buf =>
    (store buf 3 [0]).bind fun buf =>
    (store buf 4 [0]).bind fun buf =>
    let num_bytes := 5
    some [.write (buf.take num_bytes) num_bytes .onResponseWritten]

/-- The call `parent_.lock()`: the referenced service while it still exists
(`parentAlive`), the null pointer once it is gone or when `parent_` was never
assigned. -/
def ServiceLink.lockParent (self : ServiceLink) (parentAlive : Bool) :
    Option ServiceServer :=
  if parentAlive then self.parent_ else none

/-- The function `ServiceLink::onConnectionDropped`.  It assigns no member of
the link. -/
def onConnectionDropped (self : ServiceLink) (parentAlive : Bool) : List Effect :=
  match self.lockParent parentAlive with
  | some parent => [.removeServiceLink parent]
  | none => []

/-- The function `ServiceLink::onHeaderWritten`. -/
def onHeaderWritten (_self : ServiceLink) : List Effect :=
  [.read 4 .onRequestLength]

/-- The function `ServiceLink::onRequest`. -/
def onRequest (self : ServiceLink) (parentAlive : Bool) (buffer : List Nat) (size : Nat) :
    List Effect :=
  match self.lockParent parentAlive with
  | some parent => [.processRequest parent buffer size]
  | none => [.rosBreak]

/-- The function `ServiceLink::onResponseWritten`. -/
def onResponseWritten (_self : ServiceLink) : List Effect :=
  [.read 4 .onRequestLength]

/-- Whether an effect is a `write` call on the connection. -/
def Effect.isWrite : Effect → Bool
  | .write _ _ _ => true
  | _ => false

/-- Whether an effect is a `removeServiceLink` call. -/
def Effect.isRemoveServiceLink : Effect → Bool
  | .removeServiceLink _ => true
  | _ => false

/-- Whether an effect is a `processRequest` call. -/
def Effect.isProcessRequest : Effect → Bool
  | .processRequest _ _ _ => true
  | _ => false

/-- Whether an effect is an operation on the connection that completes later:
a `read`, a `write` or a `writeHeader`. -/
def Effect.isChannelOp (e : Effect) : Bool :=
  e.isRead || e.isWrite || e.isWriteHeader

/-- Whether an effect is an outbound operation on the connection: a `write` or
a `writeHeader`. -/
def Effect.isOutbound (e : Effect) : Bool :=
  e.isWrite || e.isWriteHeader

/-! ## The response envelope, as the wire format describes it -/

/-- The 4-byte little-endian encoding of a length. -/
def littleEndian32 (n : Nat) : List Nat :=
  [n % 256, n / 256 % 256, n / 65536 % 256, n / 16777216 % 256]

/-- The Response Envelope of the wire format: flag byte `1`, the 4-byte
little-endian payload length and the payload for a success (`some p`); flag
byte `0` and a zero-filled length field for a failure (`none`). -/
def responseEnvelope : Option (List Nat) → List Nat
  | some p => [1] ++ littleEndian32 p.length ++ p
  | none => [0, 0, 0, 0, 0]

/-- Decoding per the envelope format: the flag byte, the 4-byte little-endian
length, then that many payload bytes; the result is the success flag, the
payload and the bytes left over. -/
def decodeEnvelope : List Nat → Option (Bool × List Nat × List Nat)
  | flag :: b0 :: b1 :: b2 :: b3 :: rest =>
    let len := b0 + 256 * b1 + 65536 * b2 + 16777216 * b3
    if flag ≤ 1 ∧ len ≤ rest.length then
      some (flag == 1, rest.take len, rest.drop len)
    else none
  | _ => none

/-! ## Sample collaborators -/

/-- A service with checksum `abc`, not withdrawn. -/
def addTwoInts : ServiceServer :=
  ⟨"abc", "AddTwoIntsRequest", "AddTwoIntsResponse", false⟩

/-- The same service after `unadvertise()`. -/
def addTwoIntsDropped : ServiceServer :=
  { addTwoInts with isDropped := true }

/-- A node offering `add_two_ints` only. -/
def sampleNode : Node :=
  ⟨fun name => if name = "add_two_ints" then some addTwoInts else none, "/server"⟩

/-- A node whose `add_two_ints` has been withdrawn after the lookup. -/
def droppedNode : Node :=
  ⟨fun name => if name = "add_two_ints" then some addTwoIntsDropped else none, "/server"⟩

/-- A well-formed handshake header of a client. -/
def sampleHeader : Header :=
  [("md5sum", "abc"), ("service", "add_two_ints"), ("callerid", "peer1")]

/-- A handshake header asking for a service nobody offers. -/
def unknownServiceHeader : Header :=
  [("md5sum", "*"), ("service", "sub_two_ints"), ("callerid", "peer1")]

/-- A handshake header without `callerid`. -/
def noCalleridHeader : Header :=
  [("md5sum", "abc"), ("service", "add_two_ints")]

/-- A link right after construction. -/
def freshLink : ServiceLink := ⟨none⟩

/-! ## The link on its channel -/

/-- One entry of the history of a link: an entry point of the link being
invoked, or a call the link makes while it runs. -/
inductive LogEntry where
  /-- The connection invokes a completion callback. -/
  | fired (cb : Callback)
  /-- The service invokes `processResponse`. -/
  | responded
  /-- The connection invokes the drop listener `onConnectionDropped`. -/
  | disconnected
  /-- A call made by the link. -/
  | call (e : Effect)
  deriving DecidableEq, Repr

/-- Modelled from the spec: the Framed Channel and the service around one link
(`ros/connection.h`, `ros/service_server.h`): the operations issued on the
connection that have not completed yet, the number of requests handed to the
service that it has not answered yet, whether the service object still
exists, and the history so far. -/
structure Session where
  link : ServiceLink
  parentAlive : Bool
  pending : List Effect
  processing : Nat
  log : List LogEntry
  deriving DecidableEq, Repr

/-- Recording the calls made by one invocation of the link: channel operations
become pending, `processRequest` calls become requests in processing. -/
def Session.issue (s : Session) (entry : LogEntry) (effects : List Effect) : Session :=
  { s with
    pending := s.pending ++ effects.filter Effect.isChannelOp
    processing := s.processing + effects.countP Effect.isProcessRequest
    log := s.log ++ entry :: effects.map LogEntry.call }

/-- What can happen to a link after the handshake. -/
inductive Event where
  /-- The oldest pending read completes with the bytes `buffer`. -/
  | readDone (buffer : List Nat)
  /-- The oldest pending `write` or `writeHeader` completes. -/
  | writeDone
  /-- The service delivers the response to a request it is processing;
  `uninit` is the initial content of the buffer `processResponse` allocates. -/
  | response (ok : Bool) (resp : Message) (uninit : Nat → Nat)
  /-- The connection delivers its disconnect notification. -/
  | disconnect
  /-- The service object is destroyed. -/
  | serviceDestroyed

/-- Modelled from the spec: the Framed Channel dispatching one event to the
link (`readExact(n, callback)`, `write(buffer, callback)`, the disconnect
listener) and the service answering a request.  A completion goes to the
callback bound when the operation was issued, a read completes with exactly
the number of bytes asked for, and the service answers only requests it is
processing; `none` when the event cannot happen or the invoked function
fails. -/
def step (s : Session) : Event → Option Session
  | .readDone buffer =>
    match s.pending.find? Effect.isRead with
    | some (.read size .onRequestLength) =>
      if buffer.length = size then
        (onRequestLength s.link buffer size).map fun effects =>
          Session.issue { s with pending := s.pending.erase (.read size .onRequestLength) }
            (.fired .onRequestLength) effects
      else none
    | some (.read size .onRequest) =>
      if buffer.length = size then
        some (Session.issue { s with pending := s.pending.erase (.read size .onRequest) }
          (.fired .onRequest) (onRequest s.link s.parentAlive buffer size))
      else none
    | _ => none
  | .writeDone =>
    match s.pending.find? Effect.isOutbound with
    | some (.writeHeader m .onHeaderWritten) =>
      some (Session.issue
        { s with pending := s.pending.erase (.writeHeader m .onHeaderWritten) }
        (.fired .onHeaderWritten) (onHeaderWritten s.link))
    | some (.write buf n .onResponseWritten) =>
      some (Session.issue
        { s with pending := s.pending.erase (.write buf n .onResponseWritten) }
        (.fired .onResponseWritten) (onResponseWritten s.link))
    | _ => none
  | .response ok resp uninit =>
    if s.processing = 0 then none
    else
      (processResponse s.link ok resp uninit).map fun effects =>
        Session.issue { s with processing := s.processing - 1 } .responded effects
  | .disconnect =>
    some (Session.issue s .disconnected (onConnectionDropped s.link s.parentAlive))
  | .serviceDestroyed => some { s with parentAlive := false }

/-- Dispatching a sequence of events, one after the other. -/
def run (s : Session) : List Event → Option Session
  | [] => some s
  | ev :: rest => (step s ev).bind fun t => run t rest

/-- The session right after a successful handshake: `handleHeader` runs on a
link fresh from its constructor and returns `true`; its calls are on record
and the service object exists.  `none` when `handleHeader` returns `false`. -/
def negotiate (node : Node) (header : Header) : Option Session :=
  let o := handleHeader node ⟨none⟩ header
  if o.ret then
    some { link := o.link, parentAlive := true,
           pending := o.effects.filter Effect.isChannelOp, processing := 0,
           log := o.effects.map LogEntry.call }
  else none

/-- The number of reads pending on the connection. -/
def Session.pendingReads (s : Session) : Nat :=
  s.pending.countP Effect.isRead

/-- The number of writes (`write` or `writeHeader`) pending on the connection. -/
def Session.pendingWrites (s : Session) : Nat :=
  s.pending.countP Effect.isOutbound

/-- One request/response cycle: the request body the client sends and the
response the service delivers. -/
structure Cycle where
  body : List Nat
  ok : Bool
  resp : Message
  uninit : Nat → Nat

/-- The events of one cycle: the length prefix arrives, the body arrives, the
service delivers its response, the write of the envelope completes. -/
def Cycle.events (c : Cycle) : List Event :=
  [.readDone (littleEndian32 c.body.length), .readDone c.body,
   .response c.ok c.resp c.uninit, .writeDone]

/-- A cycle both sides can carry out: the body is no longer than the sanity
ceiling, and a successful response has the length its message reports, below
`2^31 - 5`. -/
def Cycle.Feasible (c : Cycle) : Prop :=
  c.body.length ≤ 1000000000 ∧
  (c.ok = true → c.resp.serializationLength = c.resp.serialize.length ∧
    c.resp.serialize.length < 2147483643)

/-- The payload a cycle answers with: `some p` for success, `none` for failure. -/
def Cycle.payload (c : Cycle) : Option (List Nat) :=
  if c.ok then some c.resp.serialize else none

/-- The history one cycle adds on a link attached to the service `ss`. -/
def Cycle.log (ss : ServiceServer) (c : Cycle) : List LogEntry :=
  [.fired .onRequestLength, .call (.read c.body.length .onRequest),
   .fired .onRequest, .call (.processRequest ss c.body c.body.length),
   .responded,
   .call (.write (responseEnvelope c.payload) (responseEnvelope c.payload).length
     .onResponseWritten),
   .fired .onResponseWritten, .call (.read 4 .onRequestLength)]

/-- Whether a history entry is the link issuing a read of a 4-byte length
prefix. -/
def LogEntry.isPrefixRead : LogEntry → Bool
  | .call (.read 4 .onRequestLength) => true
  | _ => false

/-- Whether a history entry is the link issuing a read of a request body. -/
def LogEntry.isBodyRead : LogEntry → Bool
  | .call (.read _ .onRequest) => true
  | _ => false

/-- Whether a history entry is the link issuing the write of an envelope. -/
def LogEntry.isEnvelopeWrite : LogEntry → Bool
  | .call (.write _ _ .onResponseWritten) => true
  | _ => false

/-- Whether a history entry is the link telling its service to remove it. -/
def LogEntry.isRemoval : LogEntry → Bool
  | .call (.removeServiceLink _) => true
  | _ => false

/-- Whether a history entry is the link issuing a read or a write on the
connection. -/
def LogEntry.isChannelCall : LogEntry → Bool
  | .call e => e.isChannelOp
  | _ => false

/-- A request of eight bytes answered with the payload `07 00 00 00`. -/
def sampleCycle : Cycle :=
  ⟨[1, 0, 0, 0, 2, 0, 0, 0], true, ⟨4, [7, 0, 0, 0]⟩, fun _ => 0⟩

/-- A link attached to `add_two_ints`. -/
def attachedLink : ServiceLink := ⟨some addTwoInts⟩

/-- The bookkeeping invariant of a session: what is pending on the connection
and what the service is processing add up to at most one. -/
def Session.Quiet (s : Session) : Prop :=
  s.pending.length + s.processing ≤ 1

/-- The history a session has gained since an earlier one. -/
def Session.since (later earlier : Session) : List LogEntry :=
  later.log.drop earlier.log.length

/-- A session in the read loop: attached to `add_two_ints`, waiting for a
length prefix. -/
def attachedSession : Session :=
  ⟨attachedLink, true, [.read 4 .onRequestLength], 0, []⟩

/-! ## Outcome shapes of `handleHeader` -/

/-- The successful outcome: `true` is returned, the resolved service is
recorded in `parent_`, one outbound header is written, the link is registered
once, and no header error is sent. -/
def SuccessOutcome (node : Node) (header : Header) (o : Outcome) : Prop :=
  o.ret = true ∧
  (∃ service ss, header.getValue "service" = some service ∧
      node.lookupServiceServer service = some ss ∧ o.link.parent_ = some ss ∧
      o.effects.count (.addServiceLink ss) = 1) ∧
  o.effects.countP Effect.isWriteHeader = 1 ∧
  o.effects.countP Effect.isAddServiceLink = 1 ∧
  o.effects.countP Effect.isHeaderError = 0

/-- The failed outcome: `false` is returned, one header error is sent, no
outbound header is written, the link is not registered, and the link state is
the one before the call. -/
def FailureOutcome (self : ServiceLink) (o : Outcome) : Prop :=
  o.ret = false ∧
  o.effects.countP Effect.isHeaderError = 1 ∧
  o.effects.countP Effect.isWriteHeader = 0 ∧
  o.effects.countP Effect.isAddServiceLink = 0 ∧
  o.link = self

/-! ## Handshake: theorems -/

/-- C1: for a header carrying `md5sum`, `service` and `callerid` whose service
resolves to a service `S` that is not withdrawn, `handleHeader` returns `true`
exactly when the requested checksum equals the one of `S` or either of the two
is the wildcard `*`; otherwise it fails with the checksum-mismatch header
error. -/
theorem handleHeader_checksum_rule (node : Node) (self : ServiceLink) (header : Header)
    (m service callerid : String) (S : ServiceServer)
    (hm : header.getValue "md5sum" = some m)
    (hs : header.getValue "service" = some service)
    (hc : header.getValue "callerid" = some callerid)
    (hl : node.lookupServiceServer service = some S)
    (hd : S.isDropped = false) :
    ((handleHeader node self header).ret = true ↔
        (m = S.getMD5Sum ∨ m = "*" ∨ S.getMD5Sum = "*")) ∧
    (¬ (m = S.getMD5Sum ∨ m = "*" ∨ S.getMD5Sum = "*") →
        handleHeader node self header =
          ⟨false, self, [.sendHeaderError (md5MismatchMsg service m S.getMD5Sum)]⟩) := by
  unfold handleHeader
  simp only [hm, hs, hc, hl, hd]
  by_cases h1 : S.getMD5Sum = m
  · simp [h1]
  · have h1' : ¬ m = S.getMD5Sum := fun h => h1 h.symm
    by_cases h2 : m = "*"
    · simp [h1, h2]
    · by_cases h3 : S.getMD5Sum = "*"
      · simp [h1, h2, h3]
      · simp [h1, h1', h2, h3]

/-- Witness of C1 on the sample node and header (equal checksums). -/
theorem handleHeader_checksum_rule_witness :
    ((handleHeader sampleNode freshLink sampleHeader).ret = true ↔
        ("abc" = addTwoInts.getMD5Sum ∨ "abc" = "*" ∨ addTwoInts.getMD5Sum = "*")) ∧
    (¬ ("abc" = addTwoInts.getMD5Sum ∨ "abc" = "*" ∨ addTwoInts.getMD5Sum = "*") →
        handleHeader sampleNode freshLink sampleHeader =
          ⟨false, freshLink,
            [.sendHeaderError (md5MismatchMsg "add_two_ints" "abc" addTwoInts.getMD5Sum)]⟩) :=
  handleHeader_checksum_rule sampleNode freshLink sampleHeader "abc" "add_two_ints" "peer1"
    addTwoInts (by decide) (by decide) (by decide) (by simp [sampleNode]) rfl

/-- C2: a header missing at least one of `md5sum`, `service`, `callerid` makes
`handleHeader` send the header-error notification and return `false`; the
link is not registered, no outbound header is written, and the service
reference stays as it was (unset on a link that had none). -/
theorem handleHeader_missing_key (node : Node) (self : ServiceLink) (header : Header)
    (h : header.getValue "md5sum" = none ∨ header.getValue "service" = none ∨
      header.getValue "callerid" = none) :
    (handleHeader node self header).ret = false ∧
    (handleHeader node self header).effects = [.sendHeaderError bogusHeaderMsg] ∧
    (∀ e ∈ (handleHeader node self header).effects,
      e.isAddServiceLink = false ∧ e.isWriteHeader = false) ∧
    (handleHeader node self header).link = self ∧
    (self.parent_ = none → (handleHeader node self header).link.parent_ = none) := by
  have key : handleHeader node self header =
      ⟨false, self, [.sendHeaderError bogusHeaderMsg]⟩ := by
    unfold handleHeader
    rcases h with h | h | h
    · simp only [h]
    · cases hm : header.getValue "md5sum" <;> simp only [h]
    · cases hm : header.getValue "md5sum" <;> cases hs : header.getValue "service" <;>
        simp only [h]
  rw [key]
  refine ⟨rfl, rfl, ?_, rfl, fun h0 => h0⟩
  intro e he
  simp only [List.mem_singleton] at he
  subst he
  exact ⟨rfl, rfl⟩

/-- Witness of C2 on a header without `callerid`. -/
theorem handleHeader_missing_key_witness :
    (Header.getValue noCalleridHeader "md5sum" = none ∨
      Header.getValue noCalleridHeader "service" = none ∨
      Header.getValue noCalleridHeader "callerid" = none) ∧
    (handleHeader sampleNode freshLink noCalleridHeader).ret = false ∧
    (handleHeader sampleNode freshLink noCalleridHeader).effects =
      [.sendHeaderError bogusHeaderMsg] ∧
    (∀ e ∈ (handleHeader sampleNode freshLink noCalleridHeader).effects,
      e.isAddServiceLink = false ∧ e.isWriteHeader = false) ∧
    (handleHeader sampleNode freshLink noCalleridHeader).link = freshLink ∧
    (freshLink.parent_ = none →
      (handleHeader sampleNode freshLink noCalleridHeader).link.parent_ = none) :=
  ⟨Or.inr (Or.inr (by decide)),
    handleHeader_missing_key sampleNode freshLink noCalleridHeader
      (Or.inr (Or.inr (by decide)))⟩

/-- C3: with all required keys, a resolving service name and an acceptable
checksum, a service that reports itself withdrawn at the post-lookup check
makes `handleHeader` return `false` and send the `nonexistent service [name]`
header error, the very outcome of the unresolved-name case; no outbound header
is written and the link is not registered. -/
theorem handleHeader_withdrawn (node : Node) (self : ServiceLink) (header : Header)
    (m service callerid : String) (S : ServiceServer)
    (hm : header.getValue "md5sum" = some m)
    (hs : header.getValue "service" = some service)
    (hc : header.getValue "callerid" = some callerid)
    (hl : node.lookupServiceServer service = some S)
    (hok : m = S.getMD5Sum ∨ m = "*" ∨ S.getMD5Sum = "*")
    (hd : S.isDropped = true) :
    handleHeader node self header =
      ⟨false, self, [.sendHeaderError (nonexistentServiceMsg service)]⟩ ∧
    (∀ node2 : Node, node2.lookupServiceServer service = none →
      handleHeader node2 self header = handleHeader node self header) ∧
    (∀ e ∈ (handleHeader node self header).effects,
      e.isAddServiceLink = false ∧ e.isWriteHeader = false) := by
  have key : handleHeader node self header =
      ⟨false, self, [.sendHeaderError (nonexistentServiceMsg service)]⟩ := by
    unfold handleHeader
    simp only [hm, hs, hc, hl, hd]
    have hcond : ¬ (S.getMD5Sum ≠ m ∧ (m ≠ "*" ∧ S.getMD5Sum ≠ "*")) := by
      rintro ⟨h1, h2, h3⟩
      rcases hok with h | h | h
      · exact h1 h.symm
      · exact h2 h
      · exact h3 h
    simp [hcond]
  refine ⟨key, ?_, ?_⟩
  · intro node2 h2
    rw [key]
    unfold handleHeader
    simp only [hm, hs, hc, h2]
  · rw [key]
    intro e he
    simp only [List.mem_singleton] at he
    subst he
    exact ⟨rfl, rfl⟩

/-- Witness of C3 on the node whose `add_two_ints` is withdrawn. -/
theorem handleHeader_withdrawn_witness :
    addTwoIntsDropped.isDropped = true ∧
    (handleHeader droppedNode freshLink sampleHeader =
      ⟨false, freshLink, [.sendHeaderError (nonexistentServiceMsg "add_two_ints")]⟩ ∧
    (∀ node2 : Node, node2.lookupServiceServer "add_two_ints" = none →
      handleHeader node2 freshLink sampleHeader =
        handleHeader droppedNode freshLink sampleHeader) ∧
    (∀ e ∈ (handleHeader droppedNode freshLink sampleHeader).effects,
      e.isAddServiceLink = false ∧ e.isWriteHeader = false)) :=
  ⟨rfl, handleHeader_withdrawn droppedNode freshLink sampleHeader "abc" "add_two_ints"
    "peer1" addTwoIntsDropped (by decide) (by decide) (by decide) (by simp [droppedNode])
    (Or.inl (by decide)) rfl⟩

/-- C4: with all required keys and a service name that does not resolve,
`handleHeader` returns `false` and sends exactly one header error, whose text
contains `nonexistent service [name]` for the header's service value, whatever
the requested checksum is; the link is not registered. -/
theorem handleHeader_unresolved (node : Node) (self : ServiceLink) (header : Header)
    (m service callerid : String)
    (hm : header.getValue "md5sum" = some m)
    (hs : header.getValue "service" = some service)
    (hc : header.getValue "callerid" = some callerid)
    (hl : node.lookupServiceServer service = none) :
    (handleHeader node self header).ret = false ∧
    (∃ msg pre post, (handleHeader node self header).effects = [.sendHeaderError msg] ∧
      msg = pre ++ ("nonexistent service [" ++ service ++ "]") ++ post) ∧
    (handleHeader node self header).effects.countP Effect.isHeaderError = 1 ∧
    (handleHeader node self header).effects.countP Effect.isAddServiceLink = 0 ∧
    (handleHeader node self header).link = self := by
  have key : handleHeader node self header =
      ⟨false, self, [.sendHeaderError (nonexistentServiceMsg service)]⟩ := by
    unfold handleHeader
    simp only [hm, hs, hc, hl]
  rw [key]
  refine ⟨rfl, ⟨_, "received a tcpros connection for a ", ".", rfl, ?_⟩, rfl, rfl, rfl⟩
  have hdot : "]." = "]" ++ "." := by decide
  simp only [nonexistentServiceMsg, String.append_assoc, hdot]

/-- Witness of C4 on a wildcard request for an unknown service. -/
theorem handleHeader_unresolved_witness :
    sampleNode.lookupServiceServer "sub_two_ints" = none ∧
    (handleHeader sampleNode freshLink unknownServiceHeader).ret = false ∧
    (∃ msg pre post,
      (handleHeader sampleNode freshLink unknownServiceHeader).effects =
        [.sendHeaderError msg] ∧
      msg = pre ++ ("nonexistent service [" ++ "sub_two_ints" ++ "]") ++ post) ∧
    (handleHeader sampleNode freshLink unknownServiceHeader).effects.countP
      Effect.isHeaderError = 1 ∧
    (handleHeader sampleNode freshLink unknownServiceHeader).effects.countP
      Effect.isAddServiceLink = 0 ∧
    (handleHeader sampleNode freshLink unknownServiceHeader).link = freshLink :=
  ⟨by simp [sampleNode],
    handleHeader_unresolved sampleNode freshLink unknownServiceHeader "*" "sub_two_ints"
      "peer1" (by decide) (by decide) (by decide) (by simp [sampleNode])⟩

/-- Every call of `handleHeader` that returns `true` took the last branch: the
service named by the header resolved to some `ss`, which is recorded and
registered after the outbound header is written. -/
theorem handleHeader_true_shape (node : Node) (self : ServiceLink) (header : Header)
    (h : (handleHeader node self header).ret = true) :
    ∃ service ss, header.getValue "service" = some service ∧
      node.lookupServiceServer service = some ss ∧
      handleHeader node self header =
        ⟨true, { self with parent_ := some ss },
          [.writeHeader (successHeader node ss) .onHeaderWritten, .addServiceLink ss]⟩ := by
  unfold handleHeader at h ⊢
  cases hm : header.getValue "md5sum" with
  | none => simp [hm] at h
  | some m =>
    cases hs : header.getValue "service" with
    | none => simp [hm, hs] at h
    | some service =>
      cases hc : header.getValue "callerid" with
      | none => simp [hm, hs, hc] at h
      | some cid =>
        cases hl : node.lookupServiceServer service with
        | none => simp [hm, hs, hc, hl] at h
        | some ss =>
          refine ⟨service, ss, rfl, hl, ?_⟩
          simp only [hm, hs, hc, hl] at h
          simp only [hl]
          split_ifs at h ⊢ with h1 h2
          rfl

/-- Every call of `handleHeader` that returns `false` sent one header error
and changed nothing else. -/
theorem handleHeader_false_shape (node : Node) (self : ServiceLink) (header : Header)
    (h : (handleHeader node self header).ret = false) :
    ∃ msg, handleHeader node self header = ⟨false, self, [.sendHeaderError msg]⟩ := by
  unfold handleHeader at h ⊢
  cases hm : header.getValue "md5sum" with
  | none => exact ⟨_, rfl⟩
  | some m =>
    cases hs : header.getValue "service" with
    | none => exact ⟨_, rfl⟩
    | some service =>
      cases hc : header.getValue "callerid" with
      | none => exact ⟨_, rfl⟩
      | some cid =>
        cases hl : node.lookupServiceServer service with
        | none => simp only [hl]; exact ⟨_, rfl⟩
        | some ss =>
          simp only [hm, hs, hc, hl] at h
          simp only [hl]
          split_ifs at h ⊢ with h1 h2
          · exact ⟨_, rfl⟩
          · exact ⟨_, rfl⟩

/-- C5: whenever negotiation succeeds, the outbound header written to the
channel has exactly the five keys `request_type`, `response_type`, `type`,
`md5sum`, `callerid`; `request_type` and `type` carry the request type name of
the resolved service, `response_type` its response type name, `md5sum` its own
checksum (whatever checksum the client asked for) and `callerid` the name of
the local node. -/
theorem handleHeader_success_header (node : Node) (self : ServiceLink) (header : Header)
    (h : (handleHeader node self header).ret = true) :
    ∃ service ss, header.getValue "service" = some service ∧
      node.lookupServiceServer service = some ss ∧
      (handleHeader node self header).effects =
        [.writeHeader
            [("request_type", ss.getRequestDataType),
             ("response_type", ss.getResponseDataType),
             ("type", ss.getRequestDataType),
             ("md5sum", ss.getMD5Sum),
             ("callerid", node.getName)]
            .onHeaderWritten,
         .addServiceLink ss] := by
  obtain ⟨service, ss, hs, hl, heq⟩ := handleHeader_true_shape node self header h
  refine ⟨service, ss, hs, hl, ?_⟩
  rw [heq]
  simp [successHeader, M_string.assign]

/-- Witness of C5: a wildcard request on the sample node is answered with the
checksum `abc` of the service. -/
theorem handleHeader_success_header_witness :
    (handleHeader sampleNode freshLink
      [("md5sum", "*"), ("service", "add_two_ints"), ("callerid", "peer1")]).ret = true ∧
    ∃ service ss,
      Header.getValue [("md5sum", "*"), ("service", "add_two_ints"), ("callerid", "peer1")]
        "service" = some service ∧
      sampleNode.lookupServiceServer service = some ss ∧
      (handleHeader sampleNode freshLink
        [("md5sum", "*"), ("service", "add_two_ints"), ("callerid", "peer1")]).effects =
        [.writeHeader
            [("request_type", ss.getRequestDataType),
             ("response_type", ss.getResponseDataType),
             ("type", ss.getRequestDataType),
             ("md5sum", ss.getMD5Sum),
             ("callerid", sampleNode.getName)]
            .onHeaderWritten,
         .addServiceLink ss] :=
  ⟨by decide, handleHeader_success_header sampleNode freshLink _ (by decide)⟩

/-- C6: for every header and every directory state `handleHeader` ends in
exactly one of two ways: the successful outcome (returns `true`, resolved
service recorded, one outbound header written, one `addServiceLink` call, no
header error) or the failed outcome (returns `false`, one header error, no
outbound header, no `addServiceLink` call, service reference unchanged). -/
theorem handleHeader_two_outcomes (node : Node) (self : ServiceLink) (header : Header) :
    (SuccessOutcome node header (handleHeader node self header) ∧
      ¬ FailureOutcome self (handleHeader node self header)) ∨
    (FailureOutcome self (handleHeader node self header) ∧
      ¬ SuccessOutcome node header (handleHeader node self header)) := by
  cases hr : (handleHeader node self header).ret with
  | true =>
    left
    obtain ⟨service, ss, hs, hl, heq⟩ := handleHeader_true_shape node self header hr
    constructor
    · rw [heq]
      refine ⟨rfl, ⟨service, ss, hs, hl, rfl, ?_⟩, ?_, ?_, ?_⟩
      · simp
      · simp [Effect.isWriteHeader]
      · simp [Effect.isAddServiceLink]
      · simp [Effect.isHeaderError]
    · intro hf
      rw [hf.1] at hr
      exact Bool.noConfusion hr
  | false =>
    right
    obtain ⟨msg, heq⟩ := handleHeader_false_shape node self header hr
    constructor
    · rw [heq]
      refine ⟨rfl, ?_, ?_, ?_, rfl⟩
      · simp [Effect.isHeaderError]
      · simp [Effect.isWriteHeader]
      · simp [Effect.isAddServiceLink]
    · intro hsucc
      rw [hsucc.1] at hr
      exact Bool.noConfusion hr

/-! ## Request framing: theorems -/

/-- C7: for every 4-byte length prefix whose little-endian value `n` is at
most 1,000,000,000 (the bound itself and 0 included), `onRequestLength` does
not close the channel and issues exactly one read, of exactly `n` bytes,
whose completion goes to `onRequest`. -/
theorem onRequestLength_accepts (self : ServiceLink) (b0 b1 b2 b3 n : Nat)
    (hn : n = b0 + 256 * b1 + 65536 * b2 + 16777216 * b3)
    (hle : n ≤ 1000000000) :
    onRequestLength self [b0, b1, b2, b3] 4 = some [.read n .onRequest] ∧
    ∀ effects, onRequestLength self [b0, b1, b2, b3] 4 = some effects →
      effects.countP Effect.isDrop = 0 ∧ effects.countP Effect.isRead = 1 ∧
      effects.count (.read n .onRequest) = 1 := by
  have key : onRequestLength self [b0, b1, b2, b3] 4 = some [.read n .onRequest] := by
    subst hn
    have hnot : ¬ (b0 + 256 * b1 + 65536 * b2 + 16777216 * b3 > 1000000000) := by omega
    simp [onRequestLength, loadU32, hnot]
  refine ⟨key, ?_⟩
  intro effects he
  rw [key] at he
  cases he
  simp [Effect.isDrop, Effect.isRead]

/-- Witness of C7 at the bound: the prefix `00 CA 9A 3B` is 1,000,000,000. -/
theorem onRequestLength_accepts_witness :
    (1000000000 : Nat) ≤ 1000000000 ∧
    (onRequestLength freshLink [0, 202, 154, 59] 4 = some [.read 1000000000 .onRequest] ∧
    ∀ effects, onRequestLength freshLink [0, 202, 154, 59] 4 = some effects →
      effects.countP Effect.isDrop = 0 ∧ effects.countP Effect.isRead = 1 ∧
      effects.count (.read 1000000000 .onRequest) = 1) :=
  ⟨le_refl _, onRequestLength_accepts freshLink 0 202 154 59 1000000000 (by decide)
    (le_refl _)⟩

/-- C8, evaluated on the code: for the prefix `01 CA 9A 3B` (1,000,000,001)
`onRequestLength` calls `drop` and then still issues a read of 1,000,000,001
bytes on the dropped connection. -/
theorem onRequestLength_oversize_still_reads :
    onRequestLength freshLink [1, 202, 154, 59] 4 =
      some [.drop, .read 1000000001 .onRequest] := by
  decide

/-! ## Response envelope: theorems -/

/-- Overwriting the element right after a prefix. -/
theorem set_after_prefix (pre : List Nat) (x b : Nat) (rest : List Nat) :
    (pre ++ x :: rest).set pre.length b = pre ++ b :: rest := by
  induction pre with
  | nil => rfl
  | cons a pre ih => simp [List.set, ih]

/-- Storing as many bytes as remain after a prefix replaces all of them. -/
theorem store_after_prefix (src : List Nat) :
    ∀ pre old : List Nat, old.length = src.length →
      store (pre ++ old) pre.length src = some (pre ++ src) := by
  induction src with
  | nil =>
    intro pre old h
    have : old = [] := List.length_eq_zero.mp h
    subst this
    rfl
  | cons b bs ih =>
    intro pre old h
    cases old with
    | nil => simp at h
    | cons x rest =>
      have hlt : pre.length < (pre ++ x :: rest).length := by simp
      have hrest : rest.length = bs.length := by simpa using h
      have hstep := ih (pre ++ [b]) rest hrest
      simp only [store, hlt, if_true, set_after_prefix]
      simpa using hstep

/-- An array of `n + 5` fresh bytes is five bytes followed by `n` bytes. -/
theorem newArray_split (uninit : Nat → Nat) (n : Nat) :
    ∃ a b c d e rest, newArray uninit (n + 5) = a :: b :: c :: d :: e :: rest ∧
      rest.length = n := by
  have hlen : (newArray uninit (n + 5)).length = n + 5 := by simp [newArray]
  match h : newArray uninit (n + 5), hlen with
  | a :: b :: c :: d :: e :: rest, hl =>
    exact ⟨a, b, c, d, e, rest, rfl, by simpa using hl⟩

/-- A `uint32_t` value below `2^31` converts to the same `int` value. -/
theorem toInt32_of_lt (n : Nat) (h : n < 2147483648) : toInt32 n = (n : Int) := by
  unfold toInt32
  have hmod : n % 4294967296 = n := Nat.mod_eq_of_lt (by omega)
  rw [hmod]
  simp [h]

/-- A non-negative `int` value below `2^32` converts to the same `uint32_t`. -/
theorem toUInt32_natCast (n : Nat) (h : n < 4294967296) : toUInt32 (n : Int) = n := by
  unfold toUInt32
  omega

/-- The success branch of `processResponse` on a payload shorter than
`2^31 - 5` bytes whose length `serializationLength()` reports. -/
theorem processResponse_ok (self : ServiceLink) (resp : Message) (uninit : Nat → Nat)
    (hlen : resp.serializationLength = resp.serialize.length)
    (hL : resp.serialize.length < 2147483643) :
    processResponse self true resp uninit =
      some [.write ([1] ++ littleEndian32 resp.serialize.length ++ resp.serialize)
        (resp.serialize.length + 5) .onResponseWritten] := by
  obtain ⟨a, b, c, d, e, rest, hsplit, hrest⟩ := newArray_split uninit resp.serialize.length
  have hmsg : toInt32 resp.serializationLength = (resp.serialize.length : Int) := by
    rw [hlen]; exact toInt32_of_lt _ (by omega)
  have h1 : ¬ ((resp.serialize.length : Int) + 5 > INT_MAX) := by
    unfold INT_MAX; omega
  have h2 : ¬ ((resp.serialize.length : Int) + 5 < 0) := by omega
  have hsize : ((resp.serialize.length : Int) + 5).toNat = resp.serialize.length + 5 := by
    omega
  have hnum : toUInt32 ((resp.serialize.length : Int) + 5) = resp.serialize.length + 5 := by
    have := toUInt32_natCast (resp.serialize.length + 5) (by omega)
    simpa using this
  have hbytes : bytesOfInt32 (resp.serialize.length : Int) =
      littleEndian32 resp.serialize.length := by
    unfold bytesOfInt32 littleEndian32
    rw [toUInt32_natCast _ (by omega)]
  have hpay := store_after_prefix resp.serialize
    (1 :: littleEndian32 resp.serialize.length) rest hrest
  have hpre : (1 :: littleEndian32 resp.serialize.length).length = 5 := rfl
  rw [hpre] at hpay
  unfold processResponse
  simp only [if_true, hmsg, h1, h2, if_false, hsize, hsplit, hnum, hbytes]
  have hs1 : store (a :: b :: c :: d :: e :: rest) 0 [1] =
      some (1 :: b :: c :: d :: e :: rest) := by simp [store]
  have hs2 : store (1 :: b :: c :: d :: e :: rest) 1 (littleEndian32 resp.serialize.length) =
      some (1 :: littleEndian32 resp.serialize.length ++ rest) := by
    simp [store, littleEndian32]
  have htake : List.take (resp.serialize.length + 5)
      (1 :: littleEndian32 resp.serialize.length ++ resp.serialize) =
      1 :: littleEndian32 resp.serialize.length ++ resp.serialize := by
    apply List.take_of_length_le
    simp [littleEndian32]
  simp only [hs1, Option.some_bind, hs2, hpay, htake]
  rfl

/-- The failure branch of `processResponse` writes five zero bytes. -/
theorem processResponse_fail (self : ServiceLink) (resp : Message) (uninit : Nat → Nat) :
    processResponse self false resp uninit =
      some [.write [0, 0, 0, 0, 0] 5 .onResponseWritten] := by
  simp [processResponse, newArray, store, List.range_succ]

/-- Decoding a success envelope gives back the payload, with nothing left. -/
theorem decodeEnvelope_success (p : List Nat) (h : p.length < 4294967296) :
    decodeEnvelope ([1] ++ littleEndian32 p.length ++ p) = some (true, p, []) := by
  have hval : p.length % 256 + 256 * (p.length / 256 % 256) +
      65536 * (p.length / 65536 % 256) + 16777216 * (p.length / 16777216 % 256) =
      p.length := by omega
  simp [decodeEnvelope, littleEndian32, hval]

/-- C9: the buffer `processResponse` writes is the Response Envelope.  For
`ok = true` and a response whose serialized payload `p` has the length `L`
that `serializationLength()` reports, `L < 2^31 - 5`, exactly `L + 5` bytes are
written: `1`, the 4-byte little-endian encoding of `L`, then `p`.  For
`ok = false` exactly the five bytes `0 0 0 0 0` are written. -/
theorem processResponse_writes_envelope (self : ServiceLink) (uninit : Nat → Nat) :
    (∀ resp : Message, resp.serializationLength = resp.serialize.length →
      resp.serialize.length < 2147483643 →
      processResponse self true resp uninit =
        some [.write (responseEnvelope (some resp.serialize)) (resp.serialize.length + 5)
          .onResponseWritten] ∧
      responseEnvelope (some resp.serialize) =
        [1] ++ littleEndian32 resp.serialize.length ++ resp.serialize ∧
      (responseEnvelope (some resp.serialize)).length = resp.serialize.length + 5) ∧
    (∀ resp : Message,
      processResponse self false resp uninit =
        some [.write (responseEnvelope none) 5 .onResponseWritten] ∧
      responseEnvelope none = [0, 0, 0, 0, 0]) := by
  constructor
  · intro resp hlen hL
    refine ⟨processResponse_ok self resp uninit hlen hL, rfl, ?_⟩
    simp [responseEnvelope, littleEndian32]
  · intro resp
    exact ⟨processResponse_fail self resp uninit, rfl⟩

/-- Witness of C9: the payload `07 00 00 00` is written as the nine bytes
`01 04 00 00 00 07 00 00 00`. -/
theorem processResponse_writes_envelope_witness :
    (4 : Nat) = [7, 0, 0, 0].length ∧ [7, 0, 0, 0].length < 2147483643 ∧
    processResponse freshLink true ⟨4, [7, 0, 0, 0]⟩ (fun _ => 0) =
      some [.write [1, 4, 0, 0, 0, 7, 0, 0, 0] 9 .onResponseWritten] :=
  ⟨rfl, by decide,
    ((processResponse_writes_envelope freshLink (fun _ => 0)).1 ⟨4, [7, 0, 0, 0]⟩ rfl
      (by decide)).1⟩

/-- C10 as stated fails for a payload of `2^31 - 5` bytes: `msg_len + 5`
overflows `int`, nothing is written, so nothing decodes to the payload. -/
theorem processResponse_round_trip_counterexample :
    (List.replicate 2147483643 0).length = 2147483643 ∧
    processResponse freshLink true ⟨2147483643, List.replicate 2147483643 0⟩ (fun _ => 0) =
      none ∧
    ¬ ∃ buf n cb,
      processResponse freshLink true ⟨2147483643, List.replicate 2147483643 0⟩
        (fun _ => 0) = some [.write buf n cb] ∧
      decodeEnvelope buf = some (true, List.replicate 2147483643 0, []) := by
  have hnone : processResponse freshLink true
      ⟨2147483643, List.replicate 2147483643 0⟩ (fun _ => 0) = none := by
    have hmsg : toInt32 2147483643 = 2147483643 := by decide
    have hover : (2147483643 : Int) + 5 > INT_MAX := by decide
    simp only [processResponse, if_true, hmsg, hover]
  refine ⟨List.length_replicate _ _, hnone, ?_⟩
  rintro ⟨buf, n, cb, h, -⟩
  rw [hnone] at h
  exact Option.noConfusion h

/-- C10, amended: for every payload `p` of length `L < 2^31 - 5`, decoding the
bytes written by `processResponse(true, p)` per the envelope format yields the
success flag and exactly `p`, with nothing left over; decoding the bytes
written by `processResponse(false, _)` yields failure with no payload. -/
theorem processResponse_round_trip (self : ServiceLink) (uninit : Nat → Nat) :
    (∀ p : List Nat, p.length < 2147483643 →
      ∃ buf n, processResponse self true ⟨p.length, p⟩ uninit =
          some [.write buf n .onResponseWritten] ∧
        decodeEnvelope buf = some (true, p, [])) ∧
    (∀ resp : Message,
      ∃ buf n, processResponse self false resp uninit =
          some [.write buf n .onResponseWritten] ∧
        decodeEnvelope buf = some (false, [], [])) := by
  constructor
  · intro p hp
    refine ⟨_, _, processResponse_ok self ⟨p.length, p⟩ uninit rfl hp, ?_⟩
    exact decodeEnvelope_success p (by omega)
  · intro resp
    exact ⟨_, _, processResponse_fail self resp uninit, by decide⟩

/-- Witness of the amended C10 on the payload `07 00 00 00`. -/
theorem processResponse_round_trip_witness :
    [7, 0, 0, 0].length < 2147483643 ∧
    ∃ buf n, processResponse freshLink true ⟨[7, 0, 0, 0].length, [7, 0, 0, 0]⟩ (fun _ => 0) =
        some [.write buf n .onResponseWritten] ∧
      decodeEnvelope buf = some (true, [7, 0, 0, 0], []) :=
  ⟨by decide, (processResponse_round_trip freshLink (fun _ => 0)).1 [7, 0, 0, 0] (by decide)⟩

/-! ## Disconnect and request dispatch: theorems -/

/-- C13: on every request body arrival `onRequest` calls `processRequest` of
the service exactly once, with the received buffer and size unchanged and this
link as the reply target, if and only if the service reference is still live;
when the reference is lost it raises the fatal assertion `ROS_BREAK()` and
neither calls `processRequest` nor writes a response. -/
theorem onRequest_dispatch (self : ServiceLink) (parentAlive : Bool) (buffer : List Nat)
    (size : Nat) :
    (∀ parent, self.lockParent parentAlive = some parent →
      onRequest self parentAlive buffer size = [.processRequest parent buffer size]) ∧
    (self.lockParent parentAlive = none →
      onRequest self parentAlive buffer size = [.rosBreak]) ∧
    ((onRequest self parentAlive buffer size).countP Effect.isProcessRequest = 1 ↔
      (self.lockParent parentAlive).isSome = true) ∧
    (onRequest self parentAlive buffer size).countP Effect.isProcessRequest ≤ 1 ∧
    (onRequest self parentAlive buffer size).countP Effect.isChannelOp = 0 := by
  unfold onRequest
  cases h : self.lockParent parentAlive with
  | none => simp [Effect.isProcessRequest, Effect.isChannelOp, Effect.isRead, Effect.isWrite,
      Effect.isWriteHeader]
  | some parent => simp [Effect.isProcessRequest, Effect.isChannelOp, Effect.isRead,
      Effect.isWrite, Effect.isWriteHeader]

/-- Witness of C13: a live reference gets the request, a lost one aborts. -/
theorem onRequest_dispatch_witness :
    attachedLink.lockParent true = some addTwoInts ∧
    onRequest attachedLink true [1, 0, 0, 0, 2, 0, 0, 0] 8 =
      [.processRequest addTwoInts [1, 0, 0, 0, 2, 0, 0, 0] 8] ∧
    attachedLink.lockParent false = none ∧
    onRequest attachedLink false [1, 0, 0, 0, 2, 0, 0, 0] 8 = [.rosBreak] :=
  ⟨rfl,
    (onRequest_dispatch attachedLink true [1, 0, 0, 0, 2, 0, 0, 0] 8).1 addTwoInts rfl,
    rfl,
    (onRequest_dispatch attachedLink false [1, 0, 0, 0, 2, 0, 0, 0] 8).2.1 rfl⟩

/-- C16: on every disconnect notification `onConnectionDropped` calls
`removeServiceLink` on the service, with this link, exactly when the service
reference is live (a service was recorded and still exists); when no service
was ever recorded or the service is gone it makes no call on any service and
no operation on the channel. -/
theorem onConnectionDropped_removes_when_live (self : ServiceLink) (parentAlive : Bool) :
    (∀ ss, self.parent_ = some ss → parentAlive = true →
      onConnectionDropped self parentAlive = [.removeServiceLink ss]) ∧
    (self.parent_ = none ∨ parentAlive = false →
      onConnectionDropped self parentAlive = []) ∧
    (onConnectionDropped self parentAlive).countP Effect.isChannelOp = 0 ∧
    (onConnectionDropped self parentAlive).countP Effect.isDrop = 0 := by
  unfold onConnectionDropped ServiceLink.lockParent
  cases parentAlive <;> cases hp : self.parent_ <;>
    simp [Effect.isChannelOp, Effect.isRead, Effect.isWrite, Effect.isWriteHeader,
      Effect.isDrop]

/-- Witness of C16: an attached link with its service alive asks for removal;
a fresh link and a link whose service is gone do nothing. -/
theorem onConnectionDropped_removes_when_live_witness :
    onConnectionDropped attachedLink true = [.removeServiceLink addTwoInts] ∧
    onConnectionDropped freshLink true = [] ∧
    onConnectionDropped attachedLink false = [] :=
  ⟨(onConnectionDropped_removes_when_live attachedLink true).1 addTwoInts rfl rfl,
    (onConnectionDropped_removes_when_live freshLink true).2.1 (Or.inl rfl),
    (onConnectionDropped_removes_when_live attachedLink false).2.1 (Or.inr rfl)⟩

/-- What `onRequestLength` does with a length prefix above the ceiling. -/
theorem onRequestLength_above_ceiling (self : ServiceLink) (b0 b1 b2 b3 : Nat)
    (hgt : b0 + 256 * b1 + 65536 * b2 + 16777216 * b3 > 1000000000) :
    onRequestLength self [b0, b1, b2, b3] 4 =
      some [.drop, .read (b0 + 256 * b1 + 65536 * b2 + 16777216 * b3) .onRequest] := by
  simp [onRequestLength, loadU32, hgt]

/-- C17: for every received length `n > 1,000,000,000`, `onRequestLength`
calls the forced close of the channel exactly once and sends no diagnostic to
the peer (no `sendHeaderError`, no `write`, no `writeHeader`); every failing
path of `handleHeader` sends a diagnostic and never calls the forced close. -/
theorem forced_close_versus_diagnostic :
    (∀ (self : ServiceLink) (b0 b1 b2 b3 n : Nat),
      n = b0 + 256 * b1 + 65536 * b2 + 16777216 * b3 → n > 1000000000 →
      ∃ effects, onRequestLength self [b0, b1, b2, b3] 4 = some effects ∧
        effects.countP Effect.isDrop = 1 ∧
        effects.countP Effect.isHeaderError = 0 ∧
        effects.countP Effect.isOutbound = 0) ∧
    (∀ (node : Node) (self : ServiceLink) (header : Header),
      (handleHeader node self header).ret = false →
      (handleHeader node self header).effects.countP Effect.isHeaderError = 1 ∧
      (handleHeader node self header).effects.countP Effect.isDrop = 0) := by
  constructor
  · intro self b0 b1 b2 b3 n hn hgt
    subst hn
    refine ⟨_, onRequestLength_above_ceiling self b0 b1 b2 b3 hgt, ?_, ?_, ?_⟩ <;>
      simp [Effect.isDrop, Effect.isHeaderError, Effect.isOutbound, Effect.isWrite,
        Effect.isWriteHeader]
  · intro node self header h
    obtain ⟨msg, heq⟩ := handleHeader_false_shape node self header h
    rw [heq]
    simp [Effect.isDrop, Effect.isHeaderError]

/-- Witness of C17: the prefix `01 CA 9A 3B` on one side, a header without
`callerid` on the other. -/
theorem forced_close_versus_diagnostic_witness :
    (∃ effects, onRequestLength freshLink [1, 202, 154, 59] 4 = some effects ∧
        effects.countP Effect.isDrop = 1 ∧
        effects.countP Effect.isHeaderError = 0 ∧
        effects.countP Effect.isOutbound = 0) ∧
    ((handleHeader sampleNode freshLink noCalleridHeader).effects.countP
        Effect.isHeaderError = 1 ∧
      (handleHeader sampleNode freshLink noCalleridHeader).effects.countP
        Effect.isDrop = 0) :=
  ⟨forced_close_versus_diagnostic.1 freshLink 1 202 154 59 1000000001 (by decide)
      (by decide),
    forced_close_versus_diagnostic.2 sampleNode freshLink noCalleridHeader (by decide)⟩

/-- C18: the outcome of `handleHeader` depends on `callerid` only through its
presence: two headers that both contain `callerid` and agree on `md5sum` and
`service` give, under the same directory state, the same return value, the
same link state and the same calls. -/
theorem handleHeader_ignores_callerid (node : Node) (self : ServiceLink)
    (h1 h2 : Header) (c1 c2 : String)
    (hc1 : h1.getValue "callerid" = some c1)
    (hc2 : h2.getValue "callerid" = some c2)
    (hm : h1.getValue "md5sum" = h2.getValue "md5sum")
    (hs : h1.getValue "service" = h2.getValue "service") :
    handleHeader node self h1 = handleHeader node self h2 := by
  unfold handleHeader
  rw [hm, hs, hc1, hc2]

/-- Witness of C18: the callers `peer1` and `peer2` are treated alike. -/
theorem handleHeader_ignores_callerid_witness :
    handleHeader sampleNode freshLink sampleHeader =
      handleHeader sampleNode freshLink
        [("callerid", "peer2"), ("service", "add_two_ints"), ("md5sum", "abc")] :=
  handleHeader_ignores_callerid sampleNode freshLink sampleHeader
    [("callerid", "peer2"), ("service", "add_two_ints"), ("md5sum", "abc")] "peer1" "peer2"
    (by decide) (by decide) (by decide) (by decide)

/-- The checksum-mismatch diagnostic is never the nonexistent-service one. -/
theorem md5MismatchMsg_ne_nonexistentServiceMsg (service md5sum ssMD5 name : String) :
    md5MismatchMsg service md5sum ssMD5 ≠ nonexistentServiceMsg name := by
  intro h
  have hd := congrArg String.data h
  simp [md5MismatchMsg, nonexistentServiceMsg, String.data_append] at hd

/-- The text of the missing-element diagnostic. -/
theorem bogusHeaderMsg_text :
    bogusHeaderMsg =
      "bogus tcpros header. did not have the required elements: md5sum, service, callerid" := by
  decide

/-- The text of the nonexistent-service diagnostic. -/
theorem nonexistentServiceMsg_text (service : String) :
    nonexistentServiceMsg service =
      "received a tcpros connection for a nonexistent service [" ++ service ++ "]." := by
  have hjoin : "received a tcpros connection for a " ++ "nonexistent service [" =
      "received a tcpros connection for a nonexistent service [" := by decide
  unfold nonexistentServiceMsg
  rw [hjoin]

/-- The text of the checksum-mismatch diagnostic. -/
theorem md5MismatchMsg_text (service md5sum ssMD5 : String) :
    md5MismatchMsg service md5sum ssMD5 =
      "client wants service " ++ service ++ " to have md5sum " ++ md5sum ++
        ", but it has " ++ ssMD5 ++ ". Dropping connection." := rfl

/-- C19: the handshake checks have a fixed precedence: missing keys, then
unresolved service, then checksum mismatch, then withdrawal.  In particular a
resolved service whose checksum differs from the requested one, with no
wildcard on either side, gets the checksum-mismatch diagnostic, whose text is
`client wants service <service> to have md5sum <requested md5sum>, but it has
<md5sum of the service>. Dropping connection.`, whether or not the service is
withdrawn; that text is not the nonexistent-service diagnostic, and it is the
only diagnostic sent. -/
theorem handleHeader_precedence (node : Node) (self : ServiceLink) (header : Header) :
    ((header.getValue "md5sum" = none ∨ header.getValue "service" = none ∨
        header.getValue "callerid" = none) →
      handleHeader node self header =
        ⟨false, self, [.sendHeaderError
          "bogus tcpros header. did not have the required elements: md5sum, service, callerid"]⟩) ∧
    (∀ m service callerid : String,
      header.getValue "md5sum" = some m → header.getValue "service" = some service →
      header.getValue "callerid" = some callerid →
      (node.lookupServiceServer service = none →
        handleHeader node self header =
          ⟨false, self, [.sendHeaderError
            ("received a tcpros connection for a nonexistent service [" ++ service ++
              "].")]⟩) ∧
      (∀ S : ServiceServer, node.lookupServiceServer service = some S →
        ((S.getMD5Sum ≠ m ∧ m ≠ "*" ∧ S.getMD5Sum ≠ "*") →
          handleHeader node self header =
            ⟨false, self, [.sendHeaderError
              ("client wants service " ++ service ++ " to have md5sum " ++ m ++
                ", but it has " ++ S.getMD5Sum ++ ". Dropping connection.")]⟩ ∧
          md5MismatchMsg service m S.getMD5Sum =
            "client wants service " ++ service ++ " to have md5sum " ++ m ++
              ", but it has " ++ S.getMD5Sum ++ ". Dropping connection." ∧
          "client wants service " ++ service ++ " to have md5sum " ++ m ++
              ", but it has " ++ S.getMD5Sum ++ ". Dropping connection." ≠
            "received a tcpros connection for a nonexistent service [" ++ service ++ "]." ∧
          md5MismatchMsg service m S.getMD5Sum ≠ nonexistentServiceMsg service ∧
          (handleHeader node self header).effects.countP Effect.isHeaderError = 1) ∧
        (¬ (S.getMD5Sum ≠ m ∧ m ≠ "*" ∧ S.getMD5Sum ≠ "*") → S.isDropped = true →
          handleHeader node self header =
            ⟨false, self, [.sendHeaderError
              ("received a tcpros connection for a nonexistent service [" ++ service ++
                "].")]⟩))) := by
  constructor
  · intro h
    rw [← bogusHeaderMsg_text]
    unfold handleHeader
    rcases h with h | h | h
    · simp only [h]
    · cases hm : header.getValue "md5sum" <;> simp only [h]
    · cases hm : header.getValue "md5sum" <;> cases hs : header.getValue "service" <;>
        simp only [h]
  · intro m service callerid hm hs hc
    rw [← nonexistentServiceMsg_text service]
    constructor
    · intro hl
      unfold handleHeader
      simp only [hm, hs, hc, hl]
    · intro S hl
      rw [← md5MismatchMsg_text service m S.getMD5Sum]
      constructor
      · intro hbad
        have key : handleHeader node self header =
            ⟨false, self, [.sendHeaderError (md5MismatchMsg service m S.getMD5Sum)]⟩ := by
          unfold handleHeader
          simp only [hm, hs, hc, hl]
          rw [if_pos hbad]
        refine ⟨key, rfl, md5MismatchMsg_ne_nonexistentServiceMsg _ _ _ _,
          md5MismatchMsg_ne_nonexistentServiceMsg _ _ _ _, ?_⟩
        rw [key]
        simp [Effect.isHeaderError]
      · intro hgood hd
        unfold handleHeader
        simp only [hm, hs, hc, hl]
        rw [if_neg hgood, if_pos hd]

/-- Witness of C19: `add_two_ints` is withdrawn and has checksum `abc`, the
client asks for `xyz`; the diagnostic is the checksum mismatch, naming
`add_two_ints`, `xyz` and `abc`. -/
theorem handleHeader_precedence_witness :
    addTwoIntsDropped.isDropped = true ∧
    (addTwoIntsDropped.getMD5Sum ≠ "xyz" ∧ "xyz" ≠ "*" ∧ addTwoIntsDropped.getMD5Sum ≠ "*") ∧
    handleHeader droppedNode freshLink
        [("md5sum", "xyz"), ("service", "add_two_ints"), ("callerid", "peer1")] =
      ⟨false, freshLink,
        [.sendHeaderError
          ("client wants service " ++ "add_two_ints" ++ " to have md5sum " ++ "xyz" ++
            ", but it has " ++ addTwoIntsDropped.getMD5Sum ++ ". Dropping connection.")]⟩ ∧
    "client wants service " ++ "add_two_ints" ++ " to have md5sum " ++ "xyz" ++
        ", but it has " ++ addTwoIntsDropped.getMD5Sum ++ ". Dropping connection." =
      "client wants service add_two_ints to have md5sum xyz, but it has abc. Dropping connection." :=
  ⟨rfl, by decide,
    ((((handleHeader_precedence droppedNode freshLink
        [("md5sum", "xyz"), ("service", "add_two_ints"), ("callerid", "peer1")]).2
        "xyz" "add_two_ints" "peer1" (by decide) (by decide) (by decide)).2
        addTwoIntsDropped (by simp [droppedNode])).1 (by decide)).1,
    by decide⟩

/-! ## The link on its channel: theorems -/

/-- Running two event sequences in a row. -/
theorem run_append (s : Session) (xs ys : List Event) :
    run s (xs ++ ys) = (run s xs).bind fun t => run t ys := by
  induction xs generalizing s with
  | nil => rfl
  | cons ev rest ih =>
    simp only [List.cons_append, run]
    cases step s ev with
    | none => rfl
    | some t => simpa using ih t

/-- Every call of `onRequestLength` that returns issued one read for
`onRequest`, possibly after a `drop`. -/
theorem onRequestLength_shape (self : ServiceLink) (buffer : List Nat) (size : Nat)
    (effects : List Effect) (h : onRequestLength self buffer size = some effects) :
    ∃ len, effects = [.read len .onRequest] ∨ effects = [.drop, .read len .onRequest] := by
  unfold onRequestLength at h
  split_ifs at h with hsz
  cases hl : loadU32 buffer with
  | none => simp [hl] at h
  | some len =>
    simp only [hl, Option.some.injEq] at h
    refine ⟨len, ?_⟩
    by_cases hgt : len > 1000000000
    · right; simpa [hgt] using h.symm
    · left; simpa [hgt] using h.symm

/-- Every call of `processResponse` that returns issued one write whose
completion goes to `onResponseWritten`. -/
theorem processResponse_shape (self : ServiceLink) (ok : Bool) (resp : Message)
    (uninit : Nat → Nat) (effects : List Effect)
    (h : processResponse self ok resp uninit = some effects) :
    ∃ buf n, effects = [.write buf n .onResponseWritten] := by
  unfold processResponse at h
  cases ok with
  | true =>
    simp only [if_true] at h
    split_ifs at h
    simp only [Option.bind_eq_some] at h
    obtain ⟨b1, -, b2, -, b3, -, h⟩ := h
    exact ⟨_, _, (Option.some.inj h).symm⟩
  | false =>
    simp only [Bool.false_eq_true, if_false, Option.bind_eq_some] at h
    obtain ⟨b1, -, b2, -, b3, -, b4, -, b5, -, h⟩ := h
    exact ⟨_, _, (Option.some.inj h).symm⟩

/-- The calls of `onConnectionDropped`: nothing, or one removal. -/
theorem onConnectionDropped_shape (self : ServiceLink) (parentAlive : Bool) :
    onConnectionDropped self parentAlive = [] ∨
    ∃ ss, onConnectionDropped self parentAlive = [.removeServiceLink ss] := by
  unfold onConnectionDropped
  cases self.lockParent parentAlive with
  | none => exact Or.inl rfl
  | some ss => exact Or.inr ⟨ss, rfl⟩

/-- The calls of `onRequest`: one `processRequest`, or the fatal assertion. -/
theorem onRequest_shape (self : ServiceLink) (parentAlive : Bool) (buffer : List Nat)
    (size : Nat) :
    onRequest self parentAlive buffer size = [.rosBreak] ∨
    ∃ ss, onRequest self parentAlive buffer size = [.processRequest ss buffer size] := by
  unfold onRequest
  cases self.lockParent parentAlive with
  | none => exact Or.inl rfl
  | some ss => exact Or.inr ⟨ss, rfl⟩

/-- A list of at most one element in which a search succeeds is that element. -/
theorem eq_singleton_of_find (l : List Effect) (p : Effect → Bool) (x : Effect)
    (hlen : l.length ≤ 1) (hf : l.find? p = some x) : l = [x] := by
  match l, hlen with
  | [], _ => simp at hf
  | [y], _ =>
    simp only [List.find?_cons, List.find?_nil] at hf
    split at hf
    · simpa using hf
    · simp at hf

/-- The session after a successful handshake has one operation pending. -/
theorem negotiate_quiet (node : Node) (header : Header) (s0 : Session)
    (h0 : negotiate node header = some s0) : s0.Quiet := by
  unfold negotiate at h0
  by_cases hr : (handleHeader node ⟨none⟩ header).ret = true
  · obtain ⟨service, ss, -, -, heq⟩ := handleHeader_true_shape node ⟨none⟩ header hr
    rw [heq] at h0
    simp only [if_true, Option.some.injEq] at h0
    subst h0
    simp [Session.Quiet, Effect.isChannelOp, Effect.isRead, Effect.isWrite,
      Effect.isWriteHeader]
  · simp [hr] at h0

/-- Every event keeps the bookkeeping invariant. -/
theorem step_quiet (s t : Session) (ev : Event) (hq : s.Quiet) (hs : step s ev = some t) :
    t.Quiet := by
  unfold Session.Quiet at hq ⊢
  cases ev with
  | readDone buffer =>
    simp only [step] at hs
    split at hs
    · next size hfind =>
      have hp := eq_singleton_of_find _ _ _ (by omega) hfind
      split_ifs at hs
      simp only [Option.map_eq_some'] at hs
      obtain ⟨effects, he, ht⟩ := hs
      obtain ⟨len, hshape | hshape⟩ := onRequestLength_shape _ _ _ _ he
      all_goals
        subst ht
        rw [hp] at hq
        simp [Session.issue, hp, hshape, Effect.isChannelOp, Effect.isRead, Effect.isWrite,
          Effect.isWriteHeader, Effect.isProcessRequest] at hq ⊢
        omega
    · next size hfind =>
      have hp := eq_singleton_of_find _ _ _ (by omega) hfind
      split_ifs at hs
      simp only [Option.some.injEq] at hs
      subst hs
      rw [hp] at hq
      rcases onRequest_shape s.link s.parentAlive buffer size with hshape | ⟨ss, hshape⟩
      all_goals
        simp [Session.issue, hp, hshape, Effect.isChannelOp, Effect.isRead, Effect.isWrite,
          Effect.isWriteHeader, Effect.isProcessRequest] at hq ⊢
        omega
    · simp at hs
  | writeDone =>
    simp only [step] at hs
    split at hs
    · next m hfind =>
      have hp := eq_singleton_of_find _ _ _ (by omega) hfind
      simp only [Option.some.injEq] at hs
      subst hs
      rw [hp] at hq
      simp [Session.issue, hp, onHeaderWritten, Effect.isChannelOp, Effect.isRead,
        Effect.isWrite, Effect.isWriteHeader, Effect.isProcessRequest] at hq ⊢
      omega
    · next buf n hfind =>
      have hp := eq_singleton_of_find _ _ _ (by omega) hfind
      simp only [Option.some.injEq] at hs
      subst hs
      rw [hp] at hq
      simp [Session.issue, hp, onResponseWritten, Effect.isChannelOp, Effect.isRead,
        Effect.isWrite, Effect.isWriteHeader, Effect.isProcessRequest] at hq ⊢
      omega
    · simp at hs
  | response ok resp uninit =>
    simp only [step] at hs
    split_ifs at hs with hz
    simp only [Option.map_eq_some'] at hs
    obtain ⟨effects, he, ht⟩ := hs
    obtain ⟨buf, n, hshape⟩ := processResponse_shape _ _ _ _ _ he
    subst ht
    simp [Session.issue, hshape, Effect.isChannelOp, Effect.isRead, Effect.isWrite,
      Effect.isWriteHeader, Effect.isProcessRequest]
    omega
  | disconnect =>
    simp only [step, Option.some.injEq] at hs
    subst hs
    rcases onConnectionDropped_shape s.link s.parentAlive with hshape | ⟨ss, hshape⟩
    all_goals
      simp [Session.issue, hshape, Effect.isChannelOp, Effect.isRead, Effect.isWrite,
        Effect.isWriteHeader, Effect.isProcessRequest]
      omega
  | serviceDestroyed =>
    simp only [step, Option.some.injEq] at hs
    subst hs
    exact hq

/-- Every sequence of events keeps the bookkeeping invariant. -/
theorem run_quiet (events : List Event) :
    ∀ s t : Session, s.Quiet → run s events = some t → t.Quiet := by
  induction events with
  | nil =>
    intro s t hq hr
    simp only [run, Option.some.injEq] at hr
    subst hr
    exact hq
  | cons ev rest ih =>
    intro s t hq hr
    simp only [run, Option.bind_eq_some] at hr
    obtain ⟨u, hu, hr⟩ := hr
    exact ih u t (step_quiet s u ev hq hu) hr

/-- C15: in every state reachable from a successful negotiation by events of
the protocol (a pending read or write completes, the service answers a request
it is processing; also a disconnect notification or the loss of the service),
at most one read and at most one write are pending on the channel, and a read
and a write are never pending at the same time. -/
theorem at_most_one_pending (node : Node) (header : Header) (events : List Event)
    (s0 s : Session) (h0 : negotiate node header = some s0)
    (hr : run s0 events = some s) :
    s.pendingReads ≤ 1 ∧ s.pendingWrites ≤ 1 ∧
    ¬ (0 < s.pendingReads ∧ 0 < s.pendingWrites) := by
  have hq := run_quiet events s0 s (negotiate_quiet node header s0 h0) hr
  unfold Session.Quiet at hq
  unfold Session.pendingReads Session.pendingWrites
  match hp : s.pending, hq with
  | [], _ => simp
  | [e], _ =>
    cases e <;> simp [Effect.isRead, Effect.isOutbound, Effect.isWrite, Effect.isWriteHeader]
  | _ :: _ :: _, hq => simp at hq; omega

/-- Witness of C15: after the header write completes and one whole cycle, the
only pending operation is the next read of a length prefix. -/
theorem at_most_one_pending_witness :
    (∃ s0 s, negotiate sampleNode sampleHeader = some s0 ∧
      run s0 (.writeDone :: sampleCycle.events) = some s ∧
      s.pending = [.read 4 .onRequestLength] ∧
      (s.pendingReads ≤ 1 ∧ s.pendingWrites ≤ 1 ∧
        ¬ (0 < s.pendingReads ∧ 0 < s.pendingWrites))) := by
  cases h0 : negotiate sampleNode sampleHeader with
  | none => exact absurd h0 (by decide)
  | some s0 =>
    cases hr : run s0 (.writeDone :: sampleCycle.events) with
    | none =>
      have : (negotiate sampleNode sampleHeader).bind
          (fun s => run s (.writeDone :: sampleCycle.events)) ≠ none := by decide
      rw [h0] at this
      exact absurd hr this
    | some s =>
      have hp : ((negotiate sampleNode sampleHeader).bind
          (fun s => run s (.writeDone :: sampleCycle.events))).map Session.pending =
          some [.read 4 .onRequestLength] := by decide
      rw [h0] at hp
      simp only [Option.some_bind, hr, Option.map_some'] at hp
      exact ⟨s0, s, rfl, hr, Option.some.inj hp,
        at_most_one_pending sampleNode sampleHeader _ s0 s h0 hr⟩

/-- The history built so far does not influence what an event does: with
another history `l` the same event leads to the same session, its additions
to the history appended to `l`. -/
theorem step_relog (s : Session) (l : List LogEntry) (ev : Event) :
    step { s with log := l } ev =
      (step s ev).map fun u => { u with log := l ++ u.since s } := by
  cases ev with
  | readDone buffer =>
    simp only [step]
    split
    · split_ifs
      · cases onRequestLength s.link buffer _ <;>
          simp [Session.issue, Session.since]
      · rfl
    · split_ifs
      · simp [Session.issue, Session.since]
      · rfl
    · rfl
  | writeDone =>
    simp only [step]
    split
    · simp [Session.issue, Session.since]
    · simp [Session.issue, Session.since]
    · rfl
  | response ok resp uninit =>
    simp only [step]
    split_ifs
    · rfl
    · cases processResponse s.link ok resp uninit <;> simp [Session.issue, Session.since]
  | disconnect => simp [step, Session.issue, Session.since]
  | serviceDestroyed => simp [step, Session.since]

/-- The disconnect notification changes nothing but the history. -/
theorem step_disconnect_eq (s : Session) :
    step s .disconnect =
      some { s with log := s.log ++ .disconnected ::
        (onConnectionDropped s.link s.parentAlive).map LogEntry.call } := by
  rcases onConnectionDropped_shape s.link s.parentAlive with hshape | ⟨ss, hshape⟩ <;>
    simp [step, Session.issue, hshape, Effect.isChannelOp, Effect.isRead, Effect.isWrite,
      Effect.isWriteHeader, Effect.isProcessRequest]

/-- C14 as stated fails: after the disconnect notification a response
delivered through `processResponse` still makes the link write on the channel,
and a completed read still makes it issue the next read. -/
theorem closed_link_still_reads_and_writes :
    (((negotiate sampleNode sampleHeader).bind fun s =>
        run s [.writeDone, .readDone [8, 0, 0, 0], .readDone [1, 0, 0, 0, 2, 0, 0, 0],
          .disconnect, .response false ⟨0, []⟩ (fun _ => 0)]).map
        fun s => s.log.drop 8) =
      some [.disconnected, .call (.removeServiceLink addTwoInts), .responded,
        .call (.write [0, 0, 0, 0, 0] 5 .onResponseWritten)] ∧
    (run attachedSession [.disconnect, .readDone [8, 0, 0, 0]]).map Session.log =
      some [.disconnected, .call (.removeServiceLink addTwoInts),
        .fired .onRequestLength, .call (.read 8 .onRequest)] := by
  constructor <;> decide

/-- C14, amended: the disconnect notification itself makes the link issue no
read and no write on the channel and changes neither the link nor what is
pending; the link keeps no record of it, so every later event (a read or
write completion, a response delivered through `processResponse`) makes the
link issue exactly the reads and writes it would have issued without the
notification. -/
theorem disconnect_keeps_link_running (s : Session) :
    ∃ t, step s .disconnect = some t ∧
      t.link = s.link ∧ t.parentAlive = s.parentAlive ∧ t.pending = s.pending ∧
      t.processing = s.processing ∧
      (t.since s).countP LogEntry.isChannelCall = 0 ∧
      ∀ ev : Event,
        (step t ev).map (fun u => (u.pending, u.since t)) =
          (step s ev).map (fun u => (u.pending, u.since s)) := by
  refine ⟨_, step_disconnect_eq s, rfl, rfl, rfl, rfl, ?_, ?_⟩
  · rcases onConnectionDropped_shape s.link s.parentAlive with hshape | ⟨ss, hshape⟩ <;>
      simp [Session.since, hshape, LogEntry.isChannelCall, Effect.isChannelOp, Effect.isRead,
        Effect.isWrite, Effect.isWriteHeader]
  · intro ev
    rw [step_relog s _ ev]
    cases step s ev with
    | none => rfl
    | some u => simp [Session.since]

/-- C12 as stated fails: two disconnect notifications on a link whose service
is alive make the link ask for its removal twice. -/
theorem disconnect_twice_removes_twice :
    (run attachedSession [.disconnect, .disconnect]).map Session.log =
      some [.disconnected, .call (.removeServiceLink addTwoInts),
        .disconnected, .call (.removeServiceLink addTwoInts)] ∧
    ¬ ∃ s, run attachedSession [.disconnect, .disconnect] = some s ∧
      s.log.countP LogEntry.isRemoval ≤ 1 := by
  constructor
  · decide
  · rintro ⟨s, hs, hle⟩
    have hc : (run attachedSession [.disconnect, .disconnect]).map
        (fun s => s.log.countP LogEntry.isRemoval) = some 2 := by decide
    rw [hs] at hc
    simp only [Option.map_some', Option.some.injEq] at hc
    omega

/-- C12, amended: in every link state each disconnect notification delivered
to `onConnectionDropped` makes the link instruct its service to remove it at
most once, exactly once when the service reference is live; the link keeps no
record of earlier notifications, so `k` notifications make it give that
instruction `k` times while the reference is live and never otherwise. -/
theorem disconnect_removals (s : Session) (k : Nat) :
    (onConnectionDropped s.link s.parentAlive).countP Effect.isRemoveServiceLink ≤ 1 ∧
    ∃ t added, run s (List.replicate k .disconnect) = some t ∧
      t.link = s.link ∧ t.parentAlive = s.parentAlive ∧
      t.log = s.log ++ added ∧
      added.countP LogEntry.isRemoval =
        (if (s.link.lockParent s.parentAlive).isSome then k else 0) ∧
      added.countP LogEntry.isRemoval ≤ k := by
  constructor
  · rcases onConnectionDropped_shape s.link s.parentAlive with hshape | ⟨ss, hshape⟩ <;>
      simp [hshape, Effect.isRemoveServiceLink]
  · induction k generalizing s with
    | zero => exact ⟨s, [], rfl, rfl, rfl, by simp, by simp, by simp⟩
    | succ k ih =>
      obtain ⟨t, added, hrun, hlink, halive, hlog, hcount, -⟩ :=
        ih { s with log := s.log ++ .disconnected ::
          (onConnectionDropped s.link s.parentAlive).map LogEntry.call }
      refine ⟨t, .disconnected ::
        (onConnectionDropped s.link s.parentAlive).map LogEntry.call ++ added, ?_, hlink,
        halive, ?_, ?_, ?_⟩
      · simp only [List.replicate_succ, run, step_disconnect_eq, Option.some_bind]
        exact hrun
      · simpa using hlog
      · simp only at hcount
        unfold onConnectionDropped
        cases hl : s.link.lockParent s.parentAlive with
        | none => simp [hl, hcount, LogEntry.isRemoval]
        | some ss =>
          simp [hl, hcount, LogEntry.isRemoval]
      · simp only at hcount
        unfold onConnectionDropped
        cases hl : s.link.lockParent s.parentAlive with
        | none => simp [hl, hcount, LogEntry.isRemoval]
        | some ss =>
          simp [hl, hcount, LogEntry.isRemoval]

/-- A length prefix within the ceiling, in its little-endian encoding, makes
`onRequestLength` issue the read of the body. -/
theorem onRequestLength_littleEndian32 (self : ServiceLink) (n : Nat)
    (h : n ≤ 1000000000) :
    onRequestLength self (littleEndian32 n) 4 = some [.read n .onRequest] := by
  have hval : n % 256 + 256 * (n / 256 % 256) + 65536 * (n / 65536 % 256) +
      16777216 * (n / 16777216 % 256) = n := by omega
  have hnot : ¬ (n > 1000000000) := by omega
  simp [onRequestLength, littleEndian32, loadU32, hval, hnot]

/-- The response of a feasible cycle is written as its envelope. -/
theorem processResponse_feasible (self : ServiceLink) (c : Cycle) (hc : c.Feasible) :
    processResponse self c.ok c.resp c.uninit =
      some [.write (responseEnvelope c.payload) (responseEnvelope c.payload).length
        .onResponseWritten] := by
  unfold Cycle.payload
  cases hok : c.ok with
  | true =>
    obtain ⟨hlen, hL⟩ := hc.2 hok
    rw [processResponse_ok self c.resp c.uninit hlen hL]
    simp [responseEnvelope, littleEndian32]
  | false =>
    rw [processResponse_fail self c.resp c.uninit]
    simp [responseEnvelope]

/-- One feasible cycle on a link that waits for a length prefix, with its
service alive: the four events run through, the link waits for the next
length prefix, and the history is extended by the history of the cycle. -/
theorem run_cycle (s : Session) (ss : ServiceServer) (c : Cycle) (hc : c.Feasible)
    (hp : s.pending = [.read 4 .onRequestLength]) (hz : s.processing = 0)
    (ha : s.parentAlive = true) (hl : s.link.parent_ = some ss) :
    run s c.events = some { s with log := s.log ++ c.log ss } := by
  obtain ⟨link, alive, pending, processing, log⟩ := s
  simp only at hp hz ha hl
  subst hp hz ha
  have hlen : (littleEndian32 c.body.length).length = 4 := rfl
  have h1 := onRequestLength_littleEndian32 link c.body.length hc.1
  have h2 : onRequest link true c.body c.body.length =
      [.processRequest ss c.body c.body.length] := by
    simp [onRequest, ServiceLink.lockParent, hl]
  have h3 := processResponse_feasible link c hc
  have s1 : step ⟨link, true, [.read 4 .onRequestLength], 0, log⟩
      (.readDone (littleEndian32 c.body.length)) =
      some ⟨link, true, [.read c.body.length .onRequest], 0,
        log ++ [.fired .onRequestLength, .call (.read c.body.length .onRequest)]⟩ := by
    simp [step, Session.issue, h1, hlen, Effect.isRead, Effect.isChannelOp,
      Effect.isProcessRequest]
  have s2 : step ⟨link, true, [.read c.body.length .onRequest], 0,
        log ++ [.fired .onRequestLength, .call (.read c.body.length .onRequest)]⟩
      (.readDone c.body) =
      some ⟨link, true, [], 1,
        log ++ [.fired .onRequestLength, .call (.read c.body.length .onRequest),
          .fired .onRequest, .call (.processRequest ss c.body c.body.length)]⟩ := by
    simp [step, Session.issue, h2, Effect.isRead, Effect.isChannelOp, Effect.isWrite,
      Effect.isWriteHeader, Effect.isProcessRequest]
  have s3 : step ⟨link, true, [], 1,
        log ++ [.fired .onRequestLength, .call (.read c.body.length .onRequest),
          .fired .onRequest, .call (.processRequest ss c.body c.body.length)]⟩
      (.response c.ok c.resp c.uninit) =
      some ⟨link, true,
        [.write (responseEnvelope c.payload) (responseEnvelope c.payload).length
          .onResponseWritten], 0,
        log ++ [.fired .onRequestLength, .call (.read c.body.length .onRequest),
          .fired .onRequest, .call (.processRequest ss c.body c.body.length),
          .responded,
          .call (.write (responseEnvelope c.payload) (responseEnvelope c.payload).length
            .onResponseWritten)]⟩ := by
    simp [step, Session.issue, h3, Effect.isRead, Effect.isChannelOp, Effect.isWrite,
      Effect.isWriteHeader, Effect.isProcessRequest]
  have s4 : step ⟨link, true,
        [.write (responseEnvelope c.payload) (responseEnvelope c.payload).length
          .onResponseWritten], 0,
        log ++ [.fired .onRequestLength, .call (.read c.body.length .onRequest),
          .fired .onRequest, .call (.processRequest ss c.body c.body.length),
          .responded,
          .call (.write (responseEnvelope c.payload) (responseEnvelope c.payload).length
            .onResponseWritten)]⟩
      .writeDone =
      some ⟨link, true, [.read 4 .onRequestLength], 0, log ++ c.log ss⟩ := by
    simp [step, Session.issue, onResponseWritten, Cycle.log, Effect.isRead,
      Effect.isOutbound, Effect.isChannelOp, Effect.isWrite, Effect.isWriteHeader,
      Effect.isProcessRequest]
  simp only [Cycle.events, run, s1, s2, s3, s4, Option.some_bind]

/-- Feasible cycles, one after the other. -/
theorem run_cycles (ss : ServiceServer) (cycles : List Cycle) :
    ∀ s : Session, (∀ c ∈ cycles, c.Feasible) →
      s.pending = [.read 4 .onRequestLength] → s.processing = 0 →
      s.parentAlive = true → s.link.parent_ = some ss →
      run s (cycles.flatMap Cycle.events) =
        some { s with log := s.log ++ cycles.flatMap (Cycle.log ss) } := by
  induction cycles with
  | nil => intro s _ _ _ _ _; simp [run]
  | cons c rest ih =>
    intro s hf hp hz ha hl
    have hc : c.Feasible := hf c (List.mem_cons_self _ _)
    have hrest : ∀ d ∈ rest, d.Feasible := fun d hd => hf d (List.mem_cons_of_mem _ hd)
    rw [List.flatMap_cons, run_append, run_cycle s ss c hc hp hz ha hl, Option.some_bind,
      ih { s with log := s.log ++ c.log ss } hrest hp hz ha hl]
    simp [List.flatMap_cons]

/-- The history of `N` cycles holds `N` prefix reads, `N` body reads and `N`
envelope writes. -/
theorem cycles_log_counts (ss : ServiceServer) (cycles : List Cycle) :
    (cycles.flatMap (Cycle.log ss)).countP LogEntry.isPrefixRead = cycles.length ∧
    (cycles.flatMap (Cycle.log ss)).countP LogEntry.isBodyRead = cycles.length ∧
    (cycles.flatMap (Cycle.log ss)).countP LogEntry.isEnvelopeWrite = cycles.length := by
  induction cycles with
  | nil => simp
  | cons c rest ih =>
    obtain ⟨h1, h2, h3⟩ := ih
    simp only [List.flatMap_cons, List.countP_append, h1, h2, h3, List.length_cons]
    refine ⟨?_, ?_, ?_⟩ <;>
      simp [Cycle.log, List.countP_cons, LogEntry.isPrefixRead, LogEntry.isBodyRead,
        LogEntry.isEnvelopeWrite] <;> omega

/-- The session after a successful handshake: the service is recorded and
alive, the outbound header is being written, the link is registered. -/
theorem negotiate_shape (node : Node) (header : Header) (s0 : Session)
    (h0 : negotiate node header = some s0) :
    ∃ ss, s0 = ⟨⟨some ss⟩, true, [.writeHeader (successHeader node ss) .onHeaderWritten], 0,
      [.call (.writeHeader (successHeader node ss) .onHeaderWritten),
       .call (.addServiceLink ss)]⟩ := by
  unfold negotiate at h0
  by_cases hr : (handleHeader node ⟨none⟩ header).ret = true
  · obtain ⟨service, ss, -, -, heq⟩ := handleHeader_true_shape node ⟨none⟩ header hr
    rw [heq] at h0
    simp only [if_true, Option.some.injEq] at h0
    subst h0
    exact ⟨ss, by simp [Effect.isChannelOp, Effect.isRead, Effect.isWrite,
      Effect.isWriteHeader]⟩
  · simp [hr] at h0

/-- C11 as stated fails: on the sample link, once the header write and one
whole cycle have completed, the link has issued two reads of a length prefix
(one body read, one envelope write), not one. -/
theorem one_cycle_two_prefix_reads :
    (((negotiate sampleNode sampleHeader).bind fun s =>
        run s (.writeDone :: [sampleCycle].flatMap Cycle.events)).map
        fun s => (s.log.countP LogEntry.isPrefixRead, s.log.countP LogEntry.isBodyRead,
          s.log.countP LogEntry.isEnvelopeWrite)) = some (2, 1, 1) ∧
    (((negotiate sampleNode sampleHeader).bind fun s =>
        run s (.writeDone :: [sampleCycle].flatMap Cycle.events)).map
        fun s => s.log.countP LogEntry.isPrefixRead) ≠ some [sampleCycle].length := by
  constructor <;> decide

/-- C11, amended: after `N` feasible request/response cycles on one negotiated
link (each cycle: length prefix arrives, body arrives, the service delivers one
response, the write completes), the link has issued exactly `N + 1` reads of a
4-byte length prefix (one when the header write completes, one when each
envelope write completes), `N` reads of a body and `N` envelope writes,
strictly interleaved: every cycle adds, in this order, the body read, the
`processRequest` call, the envelope write and, once the completion callback of
that write has fired, the next prefix read. -/
theorem cycles_history (node : Node) (header : Header) (s0 : Session)
    (cycles : List Cycle) (h0 : negotiate node header = some s0)
    (hf : ∀ c ∈ cycles, c.Feasible) :
    ∃ ss s, s0.link.parent_ = some ss ∧
      run s0 (.writeDone :: cycles.flatMap Cycle.events) = some s ∧
      s.log = s0.log ++ [.fired .onHeaderWritten, .call (.read 4 .onRequestLength)] ++
        cycles.flatMap (Cycle.log ss) ∧
      s.log.countP LogEntry.isPrefixRead = cycles.length + 1 ∧
      s.log.countP LogEntry.isBodyRead = cycles.length ∧
      s.log.countP LogEntry.isEnvelopeWrite = cycles.length ∧
      s.pending = [.read 4 .onRequestLength] := by
  obtain ⟨ss, hs0⟩ := negotiate_shape node header s0 h0
  subst hs0
  have hw : step ⟨⟨some ss⟩, true, [.writeHeader (successHeader node ss) .onHeaderWritten], 0,
        [.call (.writeHeader (successHeader node ss) .onHeaderWritten),
         .call (.addServiceLink ss)]⟩ .writeDone =
      some ⟨⟨some ss⟩, true, [.read 4 .onRequestLength], 0,
        [.call (.writeHeader (successHeader node ss) .onHeaderWritten),
         .call (.addServiceLink ss), .fired .onHeaderWritten,
         .call (.read 4 .onRequestLength)]⟩ := by
    simp [step, Session.issue, onHeaderWritten, Effect.isOutbound, Effect.isChannelOp,
      Effect.isRead, Effect.isWrite, Effect.isWriteHeader, Effect.isProcessRequest]
  have hrun := run_cycles ss cycles
    ⟨⟨some ss⟩, true, [.read 4 .onRequestLength], 0,
      [.call (.writeHeader (successHeader node ss) .onHeaderWritten),
       .call (.addServiceLink ss), .fired .onHeaderWritten,
       .call (.read 4 .onRequestLength)]⟩ hf rfl rfl rfl rfl
  obtain ⟨c1, c2, c3⟩ := cycles_log_counts ss cycles
  simp only at hrun
  refine ⟨ss, ⟨⟨some ss⟩, true, [.read 4 .onRequestLength], 0,
    [.call (.writeHeader (successHeader node ss) .onHeaderWritten),
     .call (.addServiceLink ss), .fired .onHeaderWritten,
     .call (.read 4 .onRequestLength)] ++ cycles.flatMap (Cycle.log ss)⟩,
    rfl, ?_, ?_, ?_, ?_, ?_, ?_⟩
  · simp only [run, hw, Option.some_bind]
    exact hrun
  · simp
  · simp [List.countP_append, List.countP_cons, c1, LogEntry.isPrefixRead]
  · simp [List.countP_append, List.countP_cons, c2, LogEntry.isBodyRead]
  · simp [List.countP_append, List.countP_cons, c3, LogEntry.isEnvelopeWrite]
  · rfl

/-- Witness of the amended C11: one cycle on the sample link. -/
theorem cycles_history_witness :
    (∀ c ∈ [sampleCycle], c.Feasible) ∧
    ∃ s0, negotiate sampleNode sampleHeader = some s0 ∧
      ∃ ss s, s0.link.parent_ = some ss ∧
        run s0 (.writeDone :: [sampleCycle].flatMap Cycle.events) = some s ∧
        s.log = s0.log ++ [.fired .onHeaderWritten, .call (.read 4 .onRequestLength)] ++
          [sampleCycle].flatMap (Cycle.log ss) ∧
        s.log.countP LogEntry.isPrefixRead = [sampleCycle].length + 1 ∧
        s.log.countP LogEntry.isBodyRead = [sampleCycle].length ∧
        s.log.countP LogEntry.isEnvelopeWrite = [sampleCycle].length ∧
        s.pending = [.read 4 .onRequestLength] := by
  have hf : ∀ c ∈ [sampleCycle], c.Feasible := by
    intro c hc
    rw [List.mem_singleton] at hc
    subst hc
    exact ⟨by decide, fun _ => ⟨rfl, by decide⟩⟩
  cases h0 : negotiate sampleNode sampleHeader with
  | none => exact absurd h0 (by decide)
  | some s0 =>
    exact ⟨hf, s0, rfl, cycles_history sampleNode sampleHeader s0 [sampleCycle] h0 hf⟩

end ros
